import Mathlib

/-!
# Verification of the note_sequencer step scheduler (src/src/lib.rs)

Shallow embedding of the `MyPlugin` step scheduler from `src/src/lib.rs`.
Floating-point (`f64`/`f32`) arithmetic is idealised as exact rational
arithmetic (`ℚ`); the Rust-specific operations that differ from the
mathematical ones (`%` remainder, `round`, the saturating `f64 as i32`
cast and the wrapping `usize as i32` cast) are modelled explicitly.
-/

/-- Rust `x % 1.0` on `f64`: remainder taking the sign of the dividend,
`x - (x / 1.0).trunc() * 1.0 = x - x.trunc()`; truncation toward zero is
`⌊x⌋` for `0 ≤ x` and `-⌊-x⌋` otherwise. -/
def rustRem1 (x : ℚ) : ℚ :=
  if 0 ≤ x then x - (⌊x⌋ : ℚ) else x + (⌊-x⌋ : ℚ)

/-- Rust `f64::round`: round half away from zero, as an integer. -/
def rustRound (x : ℚ) : ℤ :=
  if 0 ≤ x then ⌊x + 1/2⌋ else -⌊-x + 1/2⌋

/-- Rust `f64 as i32`: saturating conversion (the value is integral here,
the fractional part having been removed by `round`). -/
def satI32 (z : ℤ) : ℤ :=
  max (-2147483648) (min 2147483647 z)

/-- Rust `usize as i32`: truncation to the low 32 bits, reinterpreted as
two's-complement. -/
def wrapI32 (n : ℕ) : ℤ :=
  if ((n : ℤ) % 4294967296) < 2147483648 then (n : ℤ) % 4294967296
  else (n : ℤ) % 4294967296 - 4294967296

/-- The transport snapshot supplied by the host on every `process` call
(`context.transport()`): playing flag, optional preroll flag, optional
tempo in BPM and optional position in beats. -/
structure Transport where
  playing : Bool
  preroll_active : Option Bool
  tempo : Option ℚ
  pos_beats : Option ℚ
deriving DecidableEq, Repr

/-- A note event as sent through `context.send_event`: only the fields the
scheduler sets are modelled (`timing` is the `u32` sample offset). -/
inductive NoteEvent where
  | noteOn (timing : ℕ) (channel : ℕ) (note : ℕ) (velocity : ℚ)
  | noteOff (timing : ℕ) (channel : ℕ) (note : ℕ) (velocity : ℚ)
deriving DecidableEq, Repr

/-- The sample offset (`timing` field) of an event. -/
def NoteEvent.timing : NoteEvent → ℕ
  | .noteOn t _ _ _ => t
  | .noteOff t _ _ _ => t

/-- `nih_plug`'s `ProcessStatus` return type. -/
inductive ProcessStatus where
  | normal
  | tail (samples : ℕ)
  | keepAlive
  | error
deriving DecidableEq, Repr

/-- The persistent scheduler state of `struct MyPlugin` (the `params`
field carries no data and is omitted). -/
structure MyPlugin where
  buffer_sample_rate : Option ℚ
  last_playing : Bool
  last_pos_beats : ℚ
  searching_for_step : Bool
deriving DecidableEq, Repr

/-- `MyPlugin::DEFAULT_LAST_PLAYING` (code comment: "send all notes off"). -/
def DEFAULT_LAST_PLAYING : Bool := true

/-- `MyPlugin::DEFAULT_LAST_POS_BEATS` (code comment: "catch inital beat"). -/
def DEFAULT_LAST_POS_BEATS : ℚ := -1

/-- `MyPlugin::DEFAULT_SEARCHING_FOR_STEP`. -/
def DEFAULT_SEARCHING_FOR_STEP : Bool := true

/-- `MyPlugin::STEP_THRESHOLD_DIVISOR` (code comment: "used in determining
if play was pressed at the start of a step"). -/
def STEP_THRESHOLD_DIVISOR : ℚ := 32

/-- `MyPlugin::init`: reset the three state fields to their defaults,
keeping the cached sample rate. -/
def MyPlugin.init (s : MyPlugin) : MyPlugin :=
  { s with
    last_playing := DEFAULT_LAST_PLAYING
    last_pos_beats := DEFAULT_LAST_POS_BEATS
    searching_for_step := DEFAULT_SEARCHING_FOR_STEP }

/-- `MyPlugin::default`: no sample rate yet, state fields at defaults. -/
def MyPlugin.defaultState : MyPlugin :=
  { buffer_sample_rate := none
    last_playing := DEFAULT_LAST_PLAYING
    last_pos_beats := DEFAULT_LAST_POS_BEATS
    searching_for_step := DEFAULT_SEARCHING_FOR_STEP }

/-- The result of one `process` call: the updated plugin state, the list
of events sent through `context.send_event` in order, and the returned
status. -/
structure ProcessResult where
  state : MyPlugin
  events : List NoteEvent
  status : ProcessStatus
deriving DecidableEq, Repr

/-- The all-notes-off flush sent on the transport-pause edge: a `NoteOff`
for every note `0..=127`, channel 0, velocity 0, timing 0. -/
def allNotesOff : List NoteEvent :=
  (List.range 128).map (fun n => NoteEvent.noteOff 0 0 n 0)

/-- The two `NoteOn` events sent when a step boundary is found: note 60 on
channel 0 and note 67 on channel 1, both velocity 0.8, at the given
sample offset. -/
def noteOns (timing : ℕ) : List NoteEvent :=
  [NoteEvent.noteOn timing 0 60 (4/5), NoteEvent.noteOn timing 1 67 (4/5)]

/-- Lines 137–149 of `process`: the pre-Step-Clock determination of
`timing` (the missed-boundary catch-up and the near-boundary-resume
rules). `none` means `timing` was left `None` there. -/
def preTiming (s : MyPlugin) (pos_beats tempo : ℚ) : Option ℕ :=
  let step_seconds : ℚ := 60 / tempo
  if s.searching_for_step ∧ ⌊pos_beats⌋ > ⌊s.last_pos_beats⌋ then
    if s.last_playing then
      some 0
    else
      if rustRem1 pos_beats < step_seconds / STEP_THRESHOLD_DIVISOR then
        some 0
      else
        none
  else
    none

/-- Lines 130–221 of `process`: the playing, non-preroll path, after
`pos_beats` and `tempo` have been obtained. -/
def processPlaying (s : MyPlugin) (pos_beats tempo : ℚ) (buffer_samples : ℕ) :
    ProcessResult :=
  let step_seconds : ℚ := 60 / tempo
  let timing : Option ℕ := preTiming s pos_beats tempo
  let s1 : MyPlugin := { s with last_playing := true, last_pos_beats := pos_beats }
  match timing with
  | some tm => { state := s1, events := noteOns tm, status := .normal }
  | none =>
    match s1.buffer_sample_rate with
    | none => { state := s1, events := [], status := .normal }
    | some sr =>
      let remain_beats : ℚ := 1 - rustRem1 pos_beats
      let remain_seconds : ℚ := remain_beats * step_seconds
      let buffer_seconds : ℚ := (buffer_samples : ℚ) / sr
      if remain_seconds > buffer_seconds then
        { state := { s1 with searching_for_step := true }, events := [], status := .normal }
      else
        let remain_samples : ℤ := satI32 (rustRound (sr * remain_seconds))
        if remain_samples < 0 then
          { state := { s1 with searching_for_step := false }, events := [], status := .normal }
        else if wrapI32 buffer_samples ≤ remain_samples then
          { state := { s1 with searching_for_step := false }, events := [], status := .normal }
        else
          { state := { s1 with searching_for_step := false },
            events := noteOns remain_samples.toNat, status := .normal }

/-- `MyPlugin::process` (lines 81–222): one buffer call. -/
def process (s : MyPlugin) (t : Transport) (buffer_samples : ℕ) : ProcessResult :=
  if t.playing = false then
    if s.last_playing then
      { state := { s with
          last_playing := false
          last_pos_beats := DEFAULT_LAST_POS_BEATS
          searching_for_step := DEFAULT_SEARCHING_FOR_STEP }
        events := allNotesOff
        status := .normal }
    else
      { state := s, events := [], status := .normal }
  else if t.preroll_active.getD false then
    { state := s, events := [], status := .normal }
  else
    match t.pos_beats with
    | none => { state := s, events := [], status := .normal }
    | some pos_beats =>
      match t.tempo with
      | none => { state := s, events := [], status := .normal }
      | some tempo => processPlaying s pos_beats tempo buffer_samples

/-- Run a sequence of `process` calls, accumulating all emitted events. -/
def runEvents (s : MyPlugin) : List (Transport × ℕ) → MyPlugin × List NoteEvent
  | [] => (s, [])
  | i :: rest =>
    let r := process s i.1 i.2
    let rr := runEvents r.state rest
    (rr.1, r.events ++ rr.2)

/-- The state after a sequence of `process` calls. -/
def runState (s : MyPlugin) (inputs : List (Transport × ℕ)) : MyPlugin :=
  (runEvents s inputs).1

/-- The pause invariant: whenever the stored playing flag is false, the
scheduler is seeking and the stored position is the sentinel. -/
def StoppedInv (s : MyPlugin) : Prop :=
  s.last_playing = false →
    s.searching_for_step = true ∧ s.last_pos_beats = DEFAULT_LAST_POS_BEATS

/-- Abbreviation for the state after lines 151–152 and 174 of `process`:
`last_playing`/`last_pos_beats` updated, `searching_for_step` as given. -/
def stepState (s : MyPlugin) (p : ℚ) (b : Bool) : MyPlugin :=
  { s with last_playing := true, last_pos_beats := p, searching_for_step := b }

/-! ## Branch lemmas for `process` -/

/-- Transport pause edge (lines 89–106): previously playing, now stopped:
flush all notes off and reset the state fields. -/
theorem process_stop_edge (s : MyPlugin) (t : Transport) (n : ℕ)
    (hp : t.playing = false) (hl : s.last_playing = true) :
    process s t n =
      { state := { s with
          last_playing := false
          last_pos_beats := DEFAULT_LAST_POS_BEATS
          searching_for_step := DEFAULT_SEARCHING_FOR_STEP }
        events := allNotesOff
        status := .normal } := by
  simp [process, hp, hl]

/-- Repeated not-playing buffer: nothing is emitted and the state is
unchanged. -/
theorem process_stop_idle (s : MyPlugin) (t : Transport) (n : ℕ)
    (hp : t.playing = false) (hl : s.last_playing = false) :
    process s t n = { state := s, events := [], status := .normal } := by
  simp [process, hp, hl]

/-- Preroll (lines 108–111): playing with preroll active is a no-op. -/
theorem process_preroll_nop (s : MyPlugin) (t : Transport) (n : ℕ)
    (hp : t.playing = true) (hpre : t.preroll_active.getD false = true) :
    process s t n = { state := s, events := [], status := .normal } := by
  simp [process, hp, hpre]

/-- Missing `pos_beats` (lines 113–119): early return, state unchanged. -/
theorem process_missing_pos (s : MyPlugin) (t : Transport) (n : ℕ)
    (hp : t.playing = true) (hpre : t.preroll_active.getD false = false)
    (hpos : t.pos_beats = none) :
    process s t n = { state := s, events := [], status := .normal } := by
  simp [process, hp, hpre, hpos]

/-- Missing `tempo` (lines 121–127): early return, state unchanged. -/
theorem process_missing_tempo (s : MyPlugin) (t : Transport) (n : ℕ)
    (p : ℚ) (hp : t.playing = true) (hpre : t.preroll_active.getD false = false)
    (hpos : t.pos_beats = some p) (ht : t.tempo = none) :
    process s t n = { state := s, events := [], status := .normal } := by
  simp [process, hp, hpre, hpos, ht]

/-- With all inputs present, `process` reduces to the playing path. -/
theorem process_playing_eq (s : MyPlugin) (t : Transport) (n : ℕ) (p τ : ℚ)
    (hp : t.playing = true) (hpre : t.preroll_active.getD false = false)
    (hpos : t.pos_beats = some p) (ht : t.tempo = some τ) :
    process s t n = processPlaying s p τ n := by
  simp [process, hp, hpre, hpos, ht]

/-! ## Branch lemmas for `processPlaying` -/

/-- Any `timing` set before the Step Clock is 0. -/
theorem preTiming_isZero (s : MyPlugin) (p τ : ℚ) (tm : ℕ)
    (h : preTiming s p τ = some tm) : tm = 0 := by
  unfold preTiming at h
  dsimp only at h
  split at h
  · split at h
    · exact (Option.some_inj.mp h).symm
    · split at h
      · exact (Option.some_inj.mp h).symm
      · exact absurd h (by simp)
  · exact absurd h (by simp)

/-- Catch-up / near-boundary-resume emission: when the pre-Step-Clock
rules set `timing`, the step action is emitted there. -/
theorem processPlaying_timing_some (s : MyPlugin) (p τ : ℚ) (n : ℕ) (tm : ℕ)
    (h : preTiming s p τ = some tm) :
    processPlaying s p τ n =
      { state := { s with last_playing := true, last_pos_beats := p }
        events := noteOns tm
        status := .normal } := by
  simp [processPlaying, h]

/-- Missing sample rate (lines 163–168): no event, but `last_playing` and
`last_pos_beats` were already updated. -/
theorem processPlaying_no_sr (s : MyPlugin) (p τ : ℚ) (n : ℕ)
    (h : preTiming s p τ = none) (hsr : s.buffer_sample_rate = none) :
    processPlaying s p τ n =
      { state := { s with last_playing := true, last_pos_beats := p }
        events := [], status := .normal } := by
  simp [processPlaying, h, hsr]

/-- Boundary outside the buffer (lines 174–179): keep searching, emit
nothing. -/
theorem processPlaying_outside (s : MyPlugin) (p τ : ℚ) (n : ℕ) (r : ℚ)
    (h : preTiming s p τ = none) (hsr : s.buffer_sample_rate = some r)
    (hout : (1 - rustRem1 p) * (60 / τ) > (n : ℚ) / r) :
    processPlaying s p τ n =
      { state := stepState s p true, events := [], status := .normal } := by
  simp [processPlaying, stepState, h, hsr, hout]

/-- Boundary inside but computed sample index negative (lines 186–189):
discard. -/
theorem processPlaying_neg (s : MyPlugin) (p τ : ℚ) (n : ℕ) (r : ℚ)
    (h : preTiming s p τ = none) (hsr : s.buffer_sample_rate = some r)
    (hin : ¬ ((1 - rustRem1 p) * (60 / τ) > (n : ℚ) / r))
    (hneg : satI32 (rustRound (r * ((1 - rustRem1 p) * (60 / τ)))) < 0) :
    processPlaying s p τ n =
      { state := stepState s p false, events := [], status := .normal } := by
  simp [processPlaying, stepState, h, hsr, hin, hneg]

/-- Boundary inside but computed sample index at or past the buffer end
(lines 191–194): discard. -/
theorem processPlaying_toobig (s : MyPlugin) (p τ : ℚ) (n : ℕ) (r : ℚ)
    (h : preTiming s p τ = none) (hsr : s.buffer_sample_rate = some r)
    (hin : ¬ ((1 - rustRem1 p) * (60 / τ) > (n : ℚ) / r))
    (hnneg : ¬ satI32 (rustRound (r * ((1 - rustRem1 p) * (60 / τ)))) < 0)
    (hbig : wrapI32 n ≤ satI32 (rustRound (r * ((1 - rustRem1 p) * (60 / τ))))) :
    processPlaying s p τ n =
      { state := stepState s p false, events := [], status := .normal } := by
  simp [processPlaying, stepState, h, hsr, hin, hnneg, hbig]

/-- Boundary inside with an in-range sample index (lines 196–219): emit
the step action there. -/
theorem processPlaying_emit (s : MyPlugin) (p τ : ℚ) (n : ℕ) (r : ℚ)
    (h : preTiming s p τ = none) (hsr : s.buffer_sample_rate = some r)
    (hin : ¬ ((1 - rustRem1 p) * (60 / τ) > (n : ℚ) / r))
    (hnneg : ¬ satI32 (rustRound (r * ((1 - rustRem1 p) * (60 / τ)))) < 0)
    (hsmall : ¬ wrapI32 n ≤ satI32 (rustRound (r * ((1 - rustRem1 p) * (60 / τ))))) :
    processPlaying s p τ n =
      { state := stepState s p false
        events := noteOns (satI32 (rustRound (r * ((1 - rustRem1 p) * (60 / τ))))).toNat
        status := .normal } := by
  simp [processPlaying, stepState, h, hsr, hin, hnneg, hsmall]

/-! ## Auxiliary facts -/

/-- The wrapping `usize as i32` cast never exceeds the original value. -/
theorem wrapI32_le (n : ℕ) : wrapI32 n ≤ (n : ℤ) := by
  unfold wrapI32
  split <;> omega

/-- Every event of the all-notes-off flush is at sample offset 0. -/
theorem allNotesOff_timing (e : NoteEvent) (he : e ∈ allNotesOff) :
    e.timing = 0 := by
  unfold allNotesOff at he
  rw [List.mem_map] at he
  obtain ⟨k, -, rfl⟩ := he
  rfl

/-- Both step-action events are at the given sample offset. -/
theorem noteOns_timing (tm : ℕ) (e : NoteEvent) (he : e ∈ noteOns tm) :
    e.timing = tm := by
  unfold noteOns at he
  rw [List.mem_cons, List.mem_singleton] at he
  rcases he with rfl | rfl
  · rfl
  · rfl

/-- One `process` call preserves the pause invariant. -/
theorem stoppedInv_process (s : MyPlugin) (t : Transport) (n : ℕ)
    (h : StoppedInv s) : StoppedInv (process s t n).state := by
  by_cases hp : t.playing = true
  · by_cases hpre : t.preroll_active.getD false = true
    · rw [process_preroll_nop s t n hp hpre]; exact h
    · rw [Bool.not_eq_true] at hpre
      cases hpos : t.pos_beats with
      | none => rw [process_missing_pos s t n hp hpre hpos]; exact h
      | some p =>
        cases ht : t.tempo with
        | none => rw [process_missing_tempo s t n p hp hpre hpos ht]; exact h
        | some τ =>
          rw [process_playing_eq s t n p τ hp hpre hpos ht]
          intro hfalse
          exfalso
          unfold processPlaying at hfalse
          dsimp only at hfalse
          split at hfalse
          · simp at hfalse
          · split at hfalse
            · simp at hfalse
            · split at hfalse
              · simp at hfalse
              · split at hfalse
                · simp at hfalse
                · split at hfalse
                  · simp at hfalse
                  · simp at hfalse
  · rw [Bool.not_eq_true] at hp
    by_cases hl : s.last_playing = true
    · rw [process_stop_edge s t n hp hl]
      intro _
      exact ⟨rfl, rfl⟩
    · rw [Bool.not_eq_true] at hl
      rw [process_stop_idle s t n hp hl]
      exact h

/-- A run of `process` calls preserves the pause invariant. -/
theorem stoppedInv_run (s : MyPlugin) (inputs : List (Transport × ℕ))
    (h : StoppedInv s) : StoppedInv (runState s inputs) := by
  induction inputs generalizing s with
  | nil => exact h
  | cons i rest ih =>
    exact ih (process s i.1 i.2).state (stoppedInv_process s i.1 i.2 h)

/-- A not-playing call from a not-playing state leaves everything alone;
hence a whole run of not-playing calls emits nothing. -/
theorem runEvents_silent (inputs : List (Transport × ℕ)) (s : MyPlugin)
    (hl : s.last_playing = false) (hall : ∀ i ∈ inputs, i.1.playing = false) :
    runEvents s inputs = (s, []) := by
  induction inputs with
  | nil => rfl
  | cons i rest ih =>
    have hi : i.1.playing = false := hall i (List.mem_cons_self i rest)
    have hrest := ih (fun j hj => hall j (List.mem_cons_of_mem i hj))
    simp [runEvents, process_stop_idle s i.1 i.2 hi hl, hrest]

/-- Exhaustive shape of one call's output: the status is always normal, and
the events are nothing, the stop flush, or one step action whose offset is
either below the (wrapped) buffer length or 0. -/
theorem process_events_shape (s : MyPlugin) (t : Transport) (n : ℕ) :
    (process s t n).status = ProcessStatus.normal ∧
    ((process s t n).events = [] ∨
      (t.playing = false ∧ (process s t n).events = allNotesOff) ∨
      (∃ tm : ℕ, (process s t n).events = noteOns tm ∧
        ((tm : ℤ) < wrapI32 n ∨ tm = 0))) := by
  by_cases hp : t.playing = true
  · by_cases hpre : t.preroll_active.getD false = true
    · rw [process_preroll_nop s t n hp hpre]; exact ⟨rfl, Or.inl rfl⟩
    · rw [Bool.not_eq_true] at hpre
      cases hpos : t.pos_beats with
      | none => rw [process_missing_pos s t n hp hpre hpos]; exact ⟨rfl, Or.inl rfl⟩
      | some p =>
        cases ht : t.tempo with
        | none => rw [process_missing_tempo s t n p hp hpre hpos ht]; exact ⟨rfl, Or.inl rfl⟩
        | some τ =>
          rw [process_playing_eq s t n p τ hp hpre hpos ht]
          cases hpt : preTiming s p τ with
          | some tm =>
            rw [processPlaying_timing_some s p τ n tm hpt]
            exact ⟨rfl, Or.inr (Or.inr ⟨tm, rfl, Or.inr (preTiming_isZero s p τ tm hpt)⟩)⟩
          | none =>
            cases hsr : s.buffer_sample_rate with
            | none => rw [processPlaying_no_sr s p τ n hpt hsr]; exact ⟨rfl, Or.inl rfl⟩
            | some r =>
              by_cases hout : (1 - rustRem1 p) * (60 / τ) > (n : ℚ) / r
              · rw [processPlaying_outside s p τ n r hpt hsr hout]; exact ⟨rfl, Or.inl rfl⟩
              · by_cases hneg : satI32 (rustRound (r * ((1 - rustRem1 p) * (60 / τ)))) < 0
                · rw [processPlaying_neg s p τ n r hpt hsr hout hneg]; exact ⟨rfl, Or.inl rfl⟩
                · by_cases hbig :
                    wrapI32 n ≤ satI32 (rustRound (r * ((1 - rustRem1 p) * (60 / τ))))
                  · rw [processPlaying_toobig s p τ n r hpt hsr hout hneg hbig]
                    exact ⟨rfl, Or.inl rfl⟩
                  · rw [processPlaying_emit s p τ n r hpt hsr hout hneg hbig]
                    refine ⟨rfl, Or.inr (Or.inr ⟨_, rfl, Or.inl ?_⟩)⟩
                    rw [Int.toNat_of_nonneg (not_lt.mp hneg)]
                    exact not_le.mp hbig
  · rw [Bool.not_eq_true] at hp
    by_cases hl : s.last_playing = true
    · rw [process_stop_edge s t n hp hl]; exact ⟨rfl, Or.inr (Or.inl ⟨hp, rfl⟩)⟩
    · rw [Bool.not_eq_true] at hl
      rw [process_stop_idle s t n hp hl]; exact ⟨rfl, Or.inl rfl⟩

/-- Claim C9 (confirmed): for every scheduler state, transport snapshot
(including missing tempo, beat position or preroll flag, playing or not)
and buffer length, and any — possibly uninitialized — sample rate in the
state, `process` returns the normal continue status; no condition is
fatal. -/
theorem C9_status_normal (s : MyPlugin) (t : Transport) (n : ℕ) :
    (process s t n).status = ProcessStatus.normal :=
  (process_events_shape s t n).1

/-- Claim C10 (confirmed): a playing buffer emits either nothing or exactly
the two step-action events — a NoteOn for note 60 on channel 0 and a
NoteOn for note 67 on channel 1, both velocity 0.8 and at one shared
offset; in particular no NoteOff is ever emitted while playing. -/
theorem C10_playing_emits_chord (s : MyPlugin) (t : Transport) (n : ℕ)
    (hp : t.playing = true) :
    (process s t n).events = [] ∨
    ∃ off : ℕ, (process s t n).events =
      [NoteEvent.noteOn off 0 60 (4/5), NoteEvent.noteOn off 1 67 (4/5)] := by
  rcases (process_events_shape s t n).2 with h | ⟨hfalse, _⟩ | ⟨tm, hev, _⟩
  · exact Or.inl h
  · rw [hp] at hfalse; exact absurd hfalse (by simp)
  · exact Or.inr ⟨tm, by rw [hev]; rfl⟩

/-- Witness for C10 at a concrete playing call (the P7 data). -/
theorem C10_wit :
    (process (⟨some 48000, true, 19/5, false⟩ : MyPlugin)
      (⟨true, none, some 120, some (39/10)⟩ : Transport) 4800).events = [] ∨
    ∃ off : ℕ,
      (process (⟨some 48000, true, 19/5, false⟩ : MyPlugin)
        (⟨true, none, some 120, some (39/10)⟩ : Transport) 4800).events =
      [NoteEvent.noteOn off 0 60 (4/5), NoteEvent.noteOn off 1 67 (4/5)] :=
  C10_playing_emits_chord _ _ 4800 rfl

/-- Counterexample to C2 as stated: on a zero-length buffer, the stop
flush emits events whose offset 0 is not `< buffer_samples = 0`. -/
theorem C2_cex :
    (process MyPlugin.defaultState
      { playing := false, preroll_active := none, tempo := none, pos_beats := none }
      0).events = allNotesOff ∧
    NoteEvent.noteOff 0 0 0 0 ∈ allNotesOff ∧
    ¬ ((NoteEvent.noteOff 0 0 0 0).timing < 0) := by
  refine ⟨?_, ?_, by simp [NoteEvent.timing]⟩
  · rw [process_stop_edge _ _ _ rfl rfl]
  · exact List.mem_map.mpr ⟨0, by simp, rfl⟩

/-- Claim C2 (corrected): on every buffer with at least one sample, every
emitted event's offset is `< buffer_samples` (and `≥ 0` by type): the
Step Clock discards out-of-range offsets and all other paths emit at 0. -/
theorem C2_offset_bound (s : MyPlugin) (t : Transport) (n : ℕ) (hn : 1 ≤ n) :
    ∀ e ∈ (process s t n).events, e.timing < n := by
  rcases (process_events_shape s t n).2 with h | ⟨_, h⟩ | ⟨tm, hev, htm⟩
  · rw [h]; intro e he; exact absurd he (List.not_mem_nil e)
  · rw [h]; intro e he; rw [allNotesOff_timing e he]; omega
  · rw [hev]; intro e he; rw [noteOns_timing tm e he]
    rcases htm with hlt | rfl
    · have := wrapI32_le n; omega
    · omega

/-- Witness for C2 on a 64-sample stop buffer. -/
theorem C2_wit :
    1 ≤ 64 ∧
    ∀ e ∈ (process MyPlugin.defaultState
      { playing := false, preroll_active := none, tempo := none, pos_beats := none }
      64).events, e.timing < 64 :=
  ⟨by decide, C2_offset_bound _ _ 64 (by decide)⟩

/-- Claim C3 (confirmed): a not-playing call emits the all-notes-off flush
exactly when the previous call was playing (the falling edge), and any
further run of not-playing calls afterwards emits nothing at all. -/
theorem C3_flush_edge_triggered (s : MyPlugin) (t : Transport) (n : ℕ)
    (hp : t.playing = false) (inputs : List (Transport × ℕ))
    (hall : ∀ i ∈ inputs, i.1.playing = false) :
    ((process s t n).events = if s.last_playing then allNotesOff else []) ∧
    runEvents (process s t n).state inputs = ((process s t n).state, []) := by
  by_cases hl : s.last_playing = true
  · rw [process_stop_edge s t n hp hl, hl]
    exact ⟨by simp, runEvents_silent inputs _ rfl hall⟩
  · rw [Bool.not_eq_true] at hl
    rw [process_stop_idle s t n hp hl, hl]
    exact ⟨by simp, runEvents_silent inputs s hl hall⟩

/-- Witness for C3: first stop call from the default state flushes, two
further stop calls emit nothing. -/
theorem C3_wit :
    ((process MyPlugin.defaultState
        { playing := false, preroll_active := none, tempo := none, pos_beats := none }
        16).events =
      if MyPlugin.defaultState.last_playing then allNotesOff else []) ∧
    runEvents (process MyPlugin.defaultState
        { playing := false, preroll_active := none, tempo := none, pos_beats := none }
        16).state
      [({ playing := false, preroll_active := none, tempo := none, pos_beats := none }, 8),
       ({ playing := false, preroll_active := none, tempo := none, pos_beats := none }, 8)] =
      ((process MyPlugin.defaultState
        { playing := false, preroll_active := none, tempo := none, pos_beats := none }
        16).state, []) :=
  C3_flush_edge_triggered _ _ 16 rfl _
    (by intro i hi; rw [List.mem_cons, List.mem_singleton] at hi; rcases hi with rfl | rfl <;> rfl)

/-- Claim C6 (confirmed): in every state reachable from the initial/reset
state through any sequence of `process` calls, a stored not-playing flag
implies the scheduler is seeking with the sentinel position `-1.0`; so a
pause followed by a resume always re-enters Seeking. -/
theorem C6_pause_reenters_seeking (s0 : MyPlugin) (inputs : List (Transport × ℕ))
    (h0 : s0 = MyPlugin.defaultState ∨ ∃ s : MyPlugin, s0 = s.init)
    (h : (runState s0 inputs).last_playing = false) :
    (runState s0 inputs).searching_for_step = true ∧
    (runState s0 inputs).last_pos_beats = DEFAULT_LAST_POS_BEATS := by
  have hinv : StoppedInv s0 := by
    rcases h0 with rfl | ⟨s, rfl⟩
    · intro hfalse
      exact absurd hfalse (by simp [MyPlugin.defaultState, DEFAULT_LAST_PLAYING])
    · intro hfalse
      exact absurd hfalse (by simp [MyPlugin.init, DEFAULT_LAST_PLAYING])
  exact stoppedInv_run s0 inputs hinv h

/-- Witness for C6: one stop call from the default state reaches a paused
state, which is indeed seeking at the sentinel position. -/
theorem C6_wit :
    (runState MyPlugin.defaultState
      [((⟨false, none, none, none⟩ : Transport), 8)]).searching_for_step = true ∧
    (runState MyPlugin.defaultState
      [((⟨false, none, none, none⟩ : Transport), 8)]).last_pos_beats =
      DEFAULT_LAST_POS_BEATS :=
  C6_pause_reenters_seeking _ _ (Or.inl rfl) (by rfl)

/-- Counterexample to C7 as stated: from the default state, the very first
not-playing call does emit the (non-empty) all-notes-off flush, because
`last_playing` defaults to true. -/
theorem C7_cex :
    (process MyPlugin.defaultState (⟨false, none, none, none⟩ : Transport)
      64).events = allNotesOff ∧
    allNotesOff ≠ ([] : List NoteEvent) := by
  constructor
  · rw [process_stop_edge _ _ _ rfl rfl]
  · simp [allNotesOff]

/-- Claim C7 (corrected): from the default/reset state, the very first
process call that observes playing = false emits the all-notes-off flush
(the default `last_playing = true` deliberately sends all notes off on
the first stop, per the code comment). -/
theorem C7_first_stop_flushes (t : Transport) (n : ℕ) (hp : t.playing = false) :
    (process MyPlugin.defaultState t n).events = allNotesOff := by
  rw [process_stop_edge _ _ _ hp rfl]

/-- Witness for C7 at a concrete stop call. -/
theorem C7_wit :
    (process MyPlugin.defaultState (⟨false, none, none, none⟩ : Transport)
      32).events = allNotesOff :=
  C7_first_stop_flushes _ 32 rfl

/-- Counterexample to C8 as stated: a playing call with tempo missing
returns early without updating `last_playing`, so after the call
`last_playing` (still false) differs from the call's playing flag. -/
theorem C8_cex :
    ((⟨true, none, none, some 4⟩ : Transport).playing = true) ∧
    (process (⟨some 48000, false, -1, true⟩ : MyPlugin)
      (⟨true, none, none, some 4⟩ : Transport) 64).state.last_playing = false :=
  ⟨rfl, by rfl⟩

/-- Claim C8 (corrected): after a not-playing call `last_playing` is
false; after a playing, non-preroll call with `pos_beats` and `tempo`
available, `last_playing` is true and `last_pos_beats` is the call's
position (even if the sample rate is missing); but a preroll call or a
playing call missing `pos_beats` or `tempo` leaves the state entirely
unchanged. -/
theorem C8_state_update (s : MyPlugin) (t : Transport) (n : ℕ) :
    (t.playing = false → (process s t n).state.last_playing = false) ∧
    (∀ p τ : ℚ, t.playing = true → t.preroll_active.getD false = false →
      t.pos_beats = some p → t.tempo = some τ →
      (process s t n).state.last_playing = true ∧
      (process s t n).state.last_pos_beats = p) ∧
    (t.playing = true →
      (t.preroll_active.getD false = true ∨ t.pos_beats = none ∨ t.tempo = none) →
      (process s t n).state = s) := by
  refine ⟨?_, ?_, ?_⟩
  · intro hp
    by_cases hl : s.last_playing = true
    · rw [process_stop_edge s t n hp hl]
    · rw [Bool.not_eq_true] at hl
      rw [process_stop_idle s t n hp hl]
      exact hl
  · intro p τ hp hpre hpos ht
    rw [process_playing_eq s t n p τ hp hpre hpos ht]
    cases hpt : preTiming s p τ with
    | some tm =>
      rw [processPlaying_timing_some s p τ n tm hpt]
      exact ⟨rfl, rfl⟩
    | none =>
      cases hsr : s.buffer_sample_rate with
      | none =>
        rw [processPlaying_no_sr s p τ n hpt hsr]
        exact ⟨rfl, rfl⟩
      | some r =>
        by_cases hout : (1 - rustRem1 p) * (60 / τ) > (n : ℚ) / r
        · rw [processPlaying_outside s p τ n r hpt hsr hout]
          exact ⟨rfl, rfl⟩
        · by_cases hneg : satI32 (rustRound (r * ((1 - rustRem1 p) * (60 / τ)))) < 0
          · rw [processPlaying_neg s p τ n r hpt hsr hout hneg]
            exact ⟨rfl, rfl⟩
          · by_cases hbig :
              wrapI32 n ≤ satI32 (rustRound (r * ((1 - rustRem1 p) * (60 / τ))))
            · rw [processPlaying_toobig s p τ n r hpt hsr hout hneg hbig]
              exact ⟨rfl, rfl⟩
            · rw [processPlaying_emit s p τ n r hpt hsr hout hneg hbig]
              exact ⟨rfl, rfl⟩
  · intro hp hmiss
    by_cases hpre : t.preroll_active.getD false = true
    · rw [process_preroll_nop s t n hp hpre]
    · rw [Bool.not_eq_true] at hpre
      cases hpos : t.pos_beats with
      | none => rw [process_missing_pos s t n hp hpre hpos]
      | some p =>
        cases ht : t.tempo with
        | none => rw [process_missing_tempo s t n p hp hpre hpos ht]
        | some τ =>
          rcases hmiss with hmiss | hmiss | hmiss
          · rw [hpre] at hmiss; exact absurd hmiss (by simp)
          · rw [hpos] at hmiss; exact absurd hmiss (by simp)
          · rw [ht] at hmiss; exact absurd hmiss (by simp)

/-- Witness for C8 on a playing call with all fields available, resuming
out of a paused state. -/
theorem C8_wit :
    (process (⟨some 48000, false, -1, true⟩ : MyPlugin)
      (⟨true, none, some 120, some (41/10)⟩ : Transport) 32).state.last_playing = true ∧
    (process (⟨some 48000, false, -1, true⟩ : MyPlugin)
      (⟨true, none, some 120, some (41/10)⟩ : Transport) 32).state.last_pos_beats =
      41/10 :=
  (C8_state_update _ _ 32).2.1 (41/10) 120 rfl rfl rfl rfl

/-- Counterexample to C4 as stated: while seeking with a crossed integer
boundary but after a pause (previous buffer not playing, position far
from a boundary), no step action is emitted at offset 0 — the claim
omits the `last_playing = true` guard of the catch-up rule. -/
theorem C4_cex :
    ((⟨some 48000, false, -1, true⟩ : MyPlugin).searching_for_step = true) ∧
    (⌊((-1 : ℚ))⌋ < ⌊(9/2 : ℚ)⌋) ∧
    (process (⟨some 48000, false, -1, true⟩ : MyPlugin)
      (⟨true, none, some 120, some (9/2)⟩ : Transport) 512).events = [] := by
  refine ⟨rfl, by norm_num, ?_⟩
  norm_num [process, processPlaying, preTiming, rustRem1, rustRound, satI32, wrapI32,
    STEP_THRESHOLD_DIVISOR]

/-- Claim C4 (corrected): on a playing, non-preroll call with `pos_beats`
and `tempo` available, if the scheduler is still seeking, the previous
buffer was also playing, and the integer beat advanced past the last
stored position, the step action is emitted at offset 0 — for any state,
in particular with no sample rate cached, so without the Step Clock. -/
theorem C4_catch_up (s : MyPlugin) (t : Transport) (n : ℕ) (p τ : ℚ)
    (hp : t.playing = true) (hpre : t.preroll_active.getD false = false)
    (hpos : t.pos_beats = some p) (ht : t.tempo = some τ)
    (hsearch : s.searching_for_step = true)
    (hfloor : ⌊s.last_pos_beats⌋ < ⌊p⌋) (hlp : s.last_playing = true) :
    (process s t n).events = noteOns 0 := by
  have hpt : preTiming s p τ = some 0 := by
    unfold preTiming
    dsimp only
    rw [if_pos ⟨by rw [hsearch], hfloor⟩, if_pos (by rw [hlp])]
  rw [process_playing_eq s t n p τ hp hpre hpos ht,
    processPlaying_timing_some s p τ n 0 hpt]

/-- Witness for C4: the P4 jump from beat 3.2 to 4.1 between consecutive
playing buffers emits at offset 0, with no sample rate cached. -/
theorem C4_wit :
    (process (⟨none, true, 16/5, true⟩ : MyPlugin)
      (⟨true, none, some 120, some (41/10)⟩ : Transport) 256).events = noteOns 0 :=
  C4_catch_up _ _ 256 (41/10) 120 rfl rfl rfl rfl rfl (by norm_num) rfl

/-- Counterexample to C5 as stated: resuming from a pause at beat 4.99999
(fractional position far above the 1/32-step threshold) still emits the
step action at offset 0, via the Step Clock rounding the 0.24-sample
remainder down to 0 — so "emits at offset 0" is not equivalent to
"within the threshold". -/
theorem C5_cex :
    ¬ (rustRem1 (499999/100000) < (60/120) / STEP_THRESHOLD_DIVISOR) ∧
    (process (⟨some 48000, false, -1, true⟩ : MyPlugin)
      (⟨true, none, some 120, some (499999/100000)⟩ : Transport) 512).events =
      noteOns 0 := by
  constructor
  · norm_num [rustRem1, STEP_THRESHOLD_DIVISOR]
  · norm_num [process, processPlaying, preTiming, rustRem1, rustRound, satI32, wrapI32,
      STEP_THRESHOLD_DIVISOR]

/-- Claim C5 (corrected): on the first playing, non-preroll call after a
pause while still seeking, the near-boundary-resume rule fires (setting
offset 0 before the Step Clock is consulted) iff the integer beat
advanced and the fractional position is below `(60/tempo)/32`; when it
fires, the step action is emitted at offset 0. (The Step Clock may also
land on offset 0, as the counterexample shows, so the rule's firing — not
offset 0 itself — is what the threshold characterises.) -/
theorem C5_near_boundary_resume (s : MyPlugin) (t : Transport) (n : ℕ) (p τ : ℚ)
    (hp : t.playing = true) (hpre : t.preroll_active.getD false = false)
    (hpos : t.pos_beats = some p) (ht : t.tempo = some τ)
    (hsearch : s.searching_for_step = true) (hlp : s.last_playing = false) :
    (preTiming s p τ = some 0 ↔
      (⌊s.last_pos_beats⌋ < ⌊p⌋ ∧
        rustRem1 p < (60 / τ) / STEP_THRESHOLD_DIVISOR)) ∧
    (preTiming s p τ = some 0 → (process s t n).events = noteOns 0) := by
  constructor
  · by_cases hf : ⌊s.last_pos_beats⌋ < ⌊p⌋ <;>
      by_cases hr : rustRem1 p < (60 / τ) / STEP_THRESHOLD_DIVISOR <;>
      simp [preTiming, hsearch, hlp, hf, hr, gt_iff_lt]
  · intro h
    rw [process_playing_eq s t n p τ hp hpre hpos ht,
      processPlaying_timing_some s p τ n 0 h]

/-- Witness for C5: the P5 resume at beat 4.0078 (tempo 120) fires the
rule and emits at offset 0 with no sample rate cached. -/
theorem C5_wit :
    (process (⟨none, false, -1, true⟩ : MyPlugin)
      (⟨true, none, some 120, some (20039/5000)⟩ : Transport) 64).events =
      noteOns 0 := by
  have h := C5_near_boundary_resume (⟨none, false, -1, true⟩ : MyPlugin)
    (⟨true, none, some 120, some (20039/5000)⟩ : Transport) 64 (20039/5000) 120
    rfl rfl rfl rfl rfl rfl
  exact h.2 (h.1.mpr ⟨by norm_num, by norm_num [rustRem1, STEP_THRESHOLD_DIVISOR]⟩)

/-- Counterexample to C1 as stated: with the boundary exactly at the
buffer end (`remain_seconds = buffer_seconds`, hence "inside"), the
rounded offset equals the buffer length and is discarded, so no event is
emitted although the claim requires one. -/
theorem C1_cex :
    ((1 - rustRem1 (7/2)) * (60/120) ≤ ((12000 : ℕ) : ℚ) / 48000) ∧
    (process (⟨some 48000, true, 17/5, false⟩ : MyPlugin)
      (⟨true, none, some 120, some (7/2)⟩ : Transport) 12000).events = [] := by
  constructor
  · norm_num [rustRem1]
  · norm_num [process, processPlaying, preTiming, rustRem1, rustRound, satI32, wrapI32]

/-- Claim C1 (corrected): on a playing, non-preroll call with tempo,
position and sample rate available and the pre-Step-Clock rules not
firing: the boundary is treated as inside the buffer iff
`remain_seconds ≤ buffer_seconds` (the searching flag records the
opposite); if outside, nothing is emitted; if inside, the step action is
emitted at `round(sample_rate * remain_seconds)` provided that offset
lies in `[0, buffer_samples)` (after the code's i32 casts), and is
discarded with no event otherwise. -/
theorem C1_step_clock (s : MyPlugin) (t : Transport) (n : ℕ) (p τ r : ℚ)
    (hp : t.playing = true) (hpre : t.preroll_active.getD false = false)
    (hpos : t.pos_beats = some p) (ht : t.tempo = some τ)
    (hsr : s.buffer_sample_rate = some r) (hpt : preTiming s p τ = none) :
    ((1 - rustRem1 p) * (60 / τ) > (n : ℚ) / r →
      (process s t n).state.searching_for_step = true ∧
      (process s t n).events = []) ∧
    ((1 - rustRem1 p) * (60 / τ) ≤ (n : ℚ) / r →
      (process s t n).state.searching_for_step = false ∧
      ((0 ≤ satI32 (rustRound (r * ((1 - rustRem1 p) * (60 / τ)))) ∧
          satI32 (rustRound (r * ((1 - rustRem1 p) * (60 / τ)))) < wrapI32 n →
        (process s t n).events =
          noteOns (satI32 (rustRound (r * ((1 - rustRem1 p) * (60 / τ))))).toNat) ∧
       (satI32 (rustRound (r * ((1 - rustRem1 p) * (60 / τ)))) < 0 ∨
          wrapI32 n ≤ satI32 (rustRound (r * ((1 - rustRem1 p) * (60 / τ)))) →
        (process s t n).events = []))) := by
  rw [process_playing_eq s t n p τ hp hpre hpos ht]
  constructor
  · intro hout
    rw [processPlaying_outside s p τ n r hpt hsr hout]
    exact ⟨rfl, rfl⟩
  · intro hin
    have hin' : ¬ ((1 - rustRem1 p) * (60 / τ) > (n : ℚ) / r) := not_lt.mpr hin
    refine ⟨?_, ?_, ?_⟩
    · by_cases hneg : satI32 (rustRound (r * ((1 - rustRem1 p) * (60 / τ)))) < 0
      · rw [processPlaying_neg s p τ n r hpt hsr hin' hneg]; rfl
      · by_cases hbig :
          wrapI32 n ≤ satI32 (rustRound (r * ((1 - rustRem1 p) * (60 / τ))))
        · rw [processPlaying_toobig s p τ n r hpt hsr hin' hneg hbig]; rfl
        · rw [processPlaying_emit s p τ n r hpt hsr hin' hneg hbig]; rfl
    · rintro ⟨hnn, hlt⟩
      rw [processPlaying_emit s p τ n r hpt hsr hin' (not_lt.mpr hnn) (not_le.mpr hlt)]
    · intro hd
      by_cases hneg : satI32 (rustRound (r * ((1 - rustRem1 p) * (60 / τ)))) < 0
      · rw [processPlaying_neg s p τ n r hpt hsr hin' hneg]
      · rcases hd with hd | hd
        · exact absurd hd hneg
        · rw [processPlaying_toobig s p τ n r hpt hsr hin' hneg hd]

/-- Witness for C1: the P7 call (beat 3.9, tempo 120, 48 kHz, 4800
samples) emits at offset 2400, and the P6 call (beat 3.75, 512 samples)
emits nothing and keeps searching. -/
theorem C1_wit :
    (process (⟨some 48000, true, 19/5, false⟩ : MyPlugin)
      (⟨true, none, some 120, some (39/10)⟩ : Transport) 4800).events =
      noteOns 2400 ∧
    (process (⟨some 48000, true, 37/10, false⟩ : MyPlugin)
      (⟨true, none, some 120, some (15/4)⟩ : Transport) 512).events = [] ∧
    (process (⟨some 48000, true, 37/10, false⟩ : MyPlugin)
      (⟨true, none, some 120, some (15/4)⟩ : Transport)
      512).state.searching_for_step = true := by
  have h7 := C1_step_clock (⟨some 48000, true, 19/5, false⟩ : MyPlugin)
    (⟨true, none, some 120, some (39/10)⟩ : Transport) 4800 (39/10) 120 48000
    rfl rfl rfl rfl rfl (by simp [preTiming])
  have h6 := C1_step_clock (⟨some 48000, true, 37/10, false⟩ : MyPlugin)
    (⟨true, none, some 120, some (15/4)⟩ : Transport) 512 (15/4) 120 48000
    rfl rfl rfl rfl rfl (by simp [preTiming])
  have h6' := h6.1 (by norm_num [rustRem1])
  have h7' := (h7.2 (by norm_num [rustRem1])).2.1
    ⟨by norm_num [rustRem1, rustRound, satI32],
     by norm_num [rustRem1, rustRound, satI32, wrapI32]⟩
  have hval : satI32 (rustRound (48000 * ((1 - rustRem1 (39/10)) * (60/120)))) = 2400 := by
    norm_num [rustRem1, rustRound, satI32]
  rw [hval] at h7'
  exact ⟨h7', h6'.2, h6'.1⟩
